import Mathlib

/-!
Shallow embedding of the SRGAN training script `train.py` and proofs about it:
the gradient health monitor `check_grads`, the adversarial-phase epoch loop
bounds, the end-of-epoch checkpoint save schedule, epoch metric averaging, the
validation PSNR formula, the 60-image visualization cap, and the batch-level
control flow (gradient-check aborts) of the adversarial training loop.

Gradient values, losses and pixels are modelled as exact rationals; tensors as
lists of rationals; epoch numbers as integers (the `check_point` CLI flag is a
Python int that may be negative).
-/

namespace SRGAN

/-- A model parameter as seen by `check_grads`: `none` models `p.grad is None`,
otherwise the list of that parameter tensor's gradient values. -/
abbrev Param := Option (List ℚ)

/-- `ndarray.any()` on a float array: true iff some element is nonzero. -/
def npAny (l : List ℚ) : Bool := l.any (fun x => x != 0)

/-- Tensor / ndarray `.mean()`: sum of the elements divided by their count
(0 on the empty array, where NumPy would yield NaN; `check_grads` guards every
use of the mean behind `grads.any()` or reaches it only with `grads` empty). -/
def npMean (l : List ℚ) : ℚ := l.sum / l.length

/-- `ndarray.max()`: on the nonempty arrays where the script reaches this call
it is the greatest element; the `headD 0` seed only makes it total. -/
def npMax (l : List ℚ) : ℚ := l.foldl max (l.headD 0)

/-- The list `grads` built by the loop of `check_grads`:
`float(p.grad.mean())` for every parameter whose gradient is populated
(`not p.grad is None`), in parameter order. -/
def gradMeans : List Param → List ℚ
  | [] => []
  | none :: ps => gradMeans ps
  | some g :: ps => npMean g :: gradMeans ps

/-- `check_grads(model, model_name)` (train.py lines 34-48): collect the mean
gradient of every parameter with a populated gradient; report unhealthy
(`False`) when `grads.any()` and the mean of those means exceeds 100, or when
`grads.any()` and the max of those means exceeds 100; otherwise healthy. -/
def check_grads (params : List Param) : Bool :=
  let grads := gradMeans params
  if npAny grads ∧ npMean grads > 100 then false
  else if npAny grads ∧ npMax grads > 100 then false
  else true

/-- All gradient values of all populated parameter gradients, flattened.
`check_grads` never looks at this list directly; it is the object the spec's
phrase "all non-null gradient values" denotes. -/
def allGradValues : List Param → List ℚ
  | [] => []
  | none :: ps => allGradValues ps
  | some g :: ps => g ++ allGradValues ps

/-- `((sr - hr) ** 2).mean()` (train.py line 268): the mean squared pixel
error between the generated and the ground-truth image, both flattened to
lists of pixel values (the two tensors have the same shape, so dividing by
the length of `sr` is dividing by the element count). -/
def mseMean (sr hr : List ℚ) : ℚ :=
  (List.zipWith (fun a b => (a - b) ^ 2) sr hr).sum / sr.length

/-- The reciprocal `1 / mse` taken inside `10 * log10(1 / mse)` on train.py
line 268. Python evaluates `1 / 0.0` on float zero by raising
`ZeroDivisionError`, which aborts the validation pass; `none` models that
failure, `some` the successfully computed reciprocal. -/
def psnrRecip (sr hr : List ℚ) : Option ℚ :=
  if mseMean sr hr = 0 then none else some (1 / mseMean sr hr)

/-- Python's `range(a, b)`: the integers `a, a+1, ..., b-1` (empty when
`b ≤ a`). -/
def pythonRange (a b : ℤ) : List ℤ :=
  (List.range (b - a).toNat).map (fun (i : ℕ) => a + (i : ℤ))

/-- The adversarial-phase epoch loop header (train.py line 155):
`range(1 + max(check_point, 0), n_epoch + 1 + max(check_point, 0))`. -/
def epochLoop (check_point : ℤ) (n_epoch : ℕ) : List ℤ :=
  pythonRange (1 + max check_point 0) ((n_epoch : ℤ) + 1 + max check_point 0)

/-- The four kinds of state snapshot the script writes at an epoch end. -/
inductive Artifact where
  | netG
  | netD
  | optimizerG
  | optimizerD
deriving DecidableEq, Repr

/-- The end-of-epoch save block (train.py lines 234-246): `netG.state_dict()`
is saved unconditionally; when `epoch % 5 == 0`, `netD` and both optimizer
states are saved as well (the GPU and CPU branches perform the same saves,
differing only in the file-name suffix). -/
def epochEndSaves (epoch : ℤ) : List Artifact :=
  [Artifact.netG] ++
    (if epoch % 5 = 0 then [Artifact.netD, Artifact.optimizerG, Artifact.optimizerD]
     else [])

/-- The per-batch loss values recorded during one adversarial-phase batch
(the `.item()` floats added to `cache` on train.py lines 196 and 215-218). -/
structure BatchLosses where
  d_loss : ℚ
  mse_loss : ℚ
  tv_loss : ℚ
  adv_loss : ℚ
  g_loss : ℚ
deriving DecidableEq, Repr

/-- The epoch metrics cache (the five loss entries of the `cache` dict). -/
structure MetricsCache where
  d_loss : ℚ
  mse_loss : ℚ
  tv_loss : ℚ
  adv_loss : ℚ
  g_loss : ℚ
deriving DecidableEq, Repr

/-- `cache = {'mse_loss': 0, 'tv_loss': 0, 'adv_loss': 0, 'g_loss': 0,
'd_loss': 0, ...}` (train.py line 161): the cache is rebuilt with all-zero
entries at the start of every epoch. -/
def cacheInit : MetricsCache := ⟨0, 0, 0, 0, 0⟩

/-- One batch's worth of `cache[...] += ...` updates (train.py lines 196,
215-218). -/
def cacheStep (c : MetricsCache) (b : BatchLosses) : MetricsCache :=
  ⟨c.d_loss + b.d_loss, c.mse_loss + b.mse_loss, c.tv_loss + b.tv_loss,
   c.adv_loss + b.adv_loss, c.g_loss + b.g_loss⟩

/-- The cache at the end of an epoch that processed `batches`. -/
def epochCache (batches : List BatchLosses) : MetricsCache :=
  batches.foldl cacheStep cacheInit

/-- `log_value('d_loss', cache['d_loss']/len(train_loader), epoch)` (train.py
line 227); the epoch iterates over `train_loader`, so the divisor equals the
number of batches processed. -/
def logged_d_loss (batches : List BatchLosses) : ℚ :=
  (epochCache batches).d_loss / batches.length

/-- `log_value('mse_loss', ...)` (train.py line 229). -/
def logged_mse_loss (batches : List BatchLosses) : ℚ :=
  (epochCache batches).mse_loss / batches.length

/-- `log_value('tv_loss', ...)` (train.py line 230). -/
def logged_tv_loss (batches : List BatchLosses) : ℚ :=
  (epochCache batches).tv_loss / batches.length

/-- `log_value('adv_loss', ...)` (train.py line 231). -/
def logged_adv_loss (batches : List BatchLosses) : ℚ :=
  (epochCache batches).adv_loss / batches.length

/-- `log_value('g_loss', ...)` (train.py line 232). -/
def logged_g_loss (batches : List BatchLosses) : ℚ :=
  (epochCache batches).g_loss / batches.length

/-- One validation sample's accumulation step (train.py lines 275-277):
`if len(dev_images) < 60: dev_images.extend([...three images...])`. -/
def visStep {α : Type} (acc : List α) (t : α × α × α) : List α :=
  if acc.length < 60 then acc ++ [t.1, t.2.1, t.2.2] else acc

/-- The `dev_images` list after the validation loop has fed it one
{bicubic-restored, ground-truth, generated} triplet per sample. -/
def dev_images {α : Type} (triplets : List (α × α × α)) : List α :=
  triplets.foldl visStep []

/-- The gradient-health outcome of one adversarial batch: whether
`check_grads(netD, 'D')` and `check_grads(netG, 'G')` would report healthy
for the gradients present at their call sites in that batch. -/
structure BatchHealth where
  dHealthy : Bool
  gHealthy : Bool
deriving DecidableEq, Repr

/-- Observable actions of the adversarial loop: the two optimizer steps of a
batch (train.py lines 199 and 221) and the end-of-epoch work (logging,
checkpoint saves, validation; lines 226-291). -/
inductive Event where
  | stepD
  | stepG
  | epochEnd
deriving DecidableEq, Repr

/-- The batch loop of one adversarial epoch (train.py lines 163-224): the
returned flag records whether an unhealthy gradient check made `main` return.
An unhealthy `check_grads(netD, ...)` (line 175) aborts before any optimizer
step of the batch; an unhealthy `check_grads(netG, ...)` (line 202) aborts
after `optimizerD.step()` but before `optimizerG.step()`. -/
def runBatches : List BatchHealth → List Event × Bool
  | [] => ([], false)
  | b :: rest =>
    if b.dHealthy = false then ([], true)
    else if b.gHealthy = false then ([Event.stepD], true)
    else
      let r := runBatches rest
      (Event.stepD :: Event.stepG :: r.1, r.2)

/-- The adversarial epoch loop (train.py lines 155-291): each epoch runs its
batches; a `return` triggered inside the batch loop skips the end-of-epoch
work and every later epoch, otherwise the epoch ends with logging, saving and
validation (`Event.epochEnd`) and the next epoch starts. -/
def runEpochs : List (List BatchHealth) → List Event
  | [] => []
  | e :: rest =>
    let r := runBatches e
    if r.2 then r.1 else r.1 ++ Event.epochEnd :: runEpochs rest

/-- The event trace of a list of batches that all pass both checks. -/
def bothStepsTrace (bs : List BatchHealth) : List Event :=
  (bs.map (fun _ => [Event.stepD, Event.stepG])).flatten

/-- The event trace of a list of fully healthy epochs. -/
def healthyEpochsTrace (es : List (List BatchHealth)) : List Event :=
  (es.map (fun e => bothStepsTrace e ++ [Event.epochEnd])).flatten

/-- `if check_point == -1:` (train.py line 101): the guard of the
generator-pretraining phase. -/
def pretrainRuns (check_point : ℤ) : Bool := check_point == -1

/-- `if check_point != -1:` (train.py line 143): the guard of the
checkpoint-loading block, which loads the four files whose names embed
`str(check_point)`. -/
def loadsCheckpoint (check_point : ℤ) : Bool := check_point != -1

lemma npAny_eq_false {l : List ℚ} (h : npAny l = false) : ∀ x ∈ l, x = 0 := by
  intro x hx
  simpa using (List.any_eq_false.mp h) x hx

lemma npMean_of_all_zero {l : List ℚ} (h : ∀ x ∈ l, x = 0) : npMean l = 0 := by
  unfold npMean
  rw [List.sum_eq_zero h]
  simp

lemma foldl_max_le {c : ℚ} :
    ∀ (l : List ℚ) (a : ℚ), a ≤ c → (∀ x ∈ l, x ≤ c) → l.foldl max a ≤ c := by
  intro l
  induction l with
  | nil => intro a ha _; simpa using ha
  | cons y ys ih =>
      intro a ha hl
      have hy : y ≤ c := hl y (List.mem_cons_self y ys)
      have : max a y ≤ c := max_le ha hy
      exact ih (max a y) this (fun x hx => hl x (List.mem_cons_of_mem y hx))

lemma npMax_le {l : List ℚ} {c : ℚ} (hc : 0 ≤ c) (h : ∀ x ∈ l, x ≤ c) :
    npMax l ≤ c := by
  unfold npMax
  cases l with
  | nil => simpa using hc
  | cons y ys =>
      apply foldl_max_le (y :: ys) _ _ h
      simpa using h y (List.mem_cons_self y ys)

lemma npMax_of_all_zero {l : List ℚ} (h : ∀ x ∈ l, x = 0) : npMax l = 0 := by
  have hle : npMax l ≤ 0 := npMax_le le_rfl (fun x hx => le_of_eq (h x hx))
  cases l with
  | nil => simp [npMax]
  | cons y ys =>
      have h0 : (0 : ℚ) ≤ npMax (y :: ys) := by
        have hy : y = 0 := h y (List.mem_cons_self y ys)
        unfold npMax
        have : ∀ (zs : List ℚ) (a : ℚ), a ≤ zs.foldl max a := by
          intro zs
          induction zs with
          | nil => intro a; simp
          | cons z zt ih =>
              intro a
              exact le_trans (le_max_left a z) (ih (max a z))
        simpa [hy] using this ys (max 0 y) |>.trans_eq' (by simp [hy])
      exact le_antisymm hle h0

lemma npMean_le_of_forall_le {l : List ℚ} {c : ℚ} (hc : 0 ≤ c)
    (h : ∀ x ∈ l, x ≤ c) : npMean l ≤ c := by
  unfold npMean
  cases l with
  | nil => simpa using hc
  | cons y ys =>
      have hlen : (0 : ℚ) < ((y :: ys).length : ℚ) := by
        exact_mod_cast Nat.succ_pos ys.length
      rw [div_le_iff₀ hlen]
      calc (y :: ys).sum ≤ (y :: ys).length • c := List.sum_le_card_nsmul _ c h
        _ = ((y :: ys).length : ℚ) * c := by simp [nsmul_eq_mul]
        _ = c * ((y :: ys).length : ℚ) := by ring

lemma check_grads_def (params : List Param) :
    check_grads params =
      if npAny (gradMeans params) ∧ npMean (gradMeans params) > 100 then false
      else if npAny (gradMeans params) ∧ npMax (gradMeans params) > 100 then false
      else true := rfl

/-- Characterisation of the monitor: it reports healthy exactly when both the
mean and the max of the per-parameter gradient means are at most 100. -/
lemma check_grads_eq_true_iff (params : List Param) :
    check_grads params = true ↔
      npMean (gradMeans params) ≤ 100 ∧ npMax (gradMeans params) ≤ 100 := by
  by_cases hA : npAny (gradMeans params) = true
  · constructor
    · intro h
      rw [check_grads_def] at h
      by_cases h1 : npAny (gradMeans params) = true ∧ npMean (gradMeans params) > 100
      · simp [h1] at h
      · by_cases h2 : npAny (gradMeans params) = true ∧ npMax (gradMeans params) > 100
        · simp [if_neg h1, h2] at h
        · exact ⟨le_of_not_lt (fun hc => h1 ⟨hA, hc⟩),
                 le_of_not_lt (fun hc => h2 ⟨hA, hc⟩)⟩
    · rintro ⟨hm, hx⟩
      have h1 : ¬(npAny (gradMeans params) = true ∧ npMean (gradMeans params) > 100) := by
        rintro ⟨-, hgt⟩; exact absurd hm (not_le.mpr hgt)
      have h2 : ¬(npAny (gradMeans params) = true ∧ npMax (gradMeans params) > 100) := by
        rintro ⟨-, hgt⟩; exact absurd hx (not_le.mpr hgt)
      rw [check_grads_def, if_neg h1, if_neg h2]
  · have hz : ∀ x ∈ gradMeans params, x = 0 :=
      npAny_eq_false (Bool.not_eq_true _ ▸ eq_false_of_ne_true hA)
    have hm : npMean (gradMeans params) = 0 := npMean_of_all_zero hz
    have hx : npMax (gradMeans params) = 0 := npMax_of_all_zero hz
    have h1 : ¬(npAny (gradMeans params) = true ∧ npMean (gradMeans params) > 100) := by
      rintro ⟨ha, -⟩; exact hA ha
    have h2 : ¬(npAny (gradMeans params) = true ∧ npMax (gradMeans params) > 100) := by
      rintro ⟨ha, -⟩; exact hA ha
    constructor
    · intro _
      rw [hm, hx]
      norm_num
    · intro _
      rw [check_grads_def, if_neg h1, if_neg h2]

lemma gradMeans_eq_nil {params : List Param} (h : ∀ p ∈ params, p = none) :
    gradMeans params = [] := by
  induction params with
  | nil => rfl
  | cons p ps ih =>
      have hp := h p (List.mem_cons_self p ps)
      subst hp
      exact ih (fun q hq => h q (List.mem_cons_of_mem _ hq))

/-- C1 (counterexample): a single parameter with gradient values
`[200, -200]` has an individual gradient value whose magnitude exceeds the
threshold 100 — so under the claim the monitor must report unhealthy — yet
`check_grads` reports healthy, because it only ever inspects the
per-parameter gradient means and this parameter's mean is 0. -/
theorem c1_counterexample :
    check_grads [some [200, -200]] = true ∧
      100 < npMax (allGradValues [some [200, -200]]) := by
  have hm : npMean [(200 : ℚ), -200] = 0 := by norm_num [npMean]
  have hg : gradMeans [some [200, -200]] = [0] := by simp [gradMeans, hm]
  have hv : allGradValues [some [200, -200]] = [200, -200] := by
    simp [allGradValues]
  have hx : npMax [(200 : ℚ), -200] = 200 := by
    unfold npMax
    simp only [List.headD_cons, List.foldl_cons, List.foldl_nil, max_self]
    exact max_eq_left (by norm_num)
  constructor
  · rw [check_grads_def, hg]
    norm_num [npAny, npMean, npMax]
  · rw [hv, hx]
    norm_num

/-- C1 (amended): with "gradient values" read as the per-parameter gradient
means actually collected by `check_grads`, the claim holds: when both the
mean and the max of those means are at most 100 the monitor reports healthy,
and when their mean or max exceeds 100 it reports unhealthy. -/
theorem c1_amended (params : List Param) :
    (npMean (gradMeans params) ≤ 100 ∧ npMax (gradMeans params) ≤ 100 →
      check_grads params = true) ∧
    (100 < npMean (gradMeans params) ∨ 100 < npMax (gradMeans params) →
      check_grads params = false) := by
  constructor
  · intro h
    exact (check_grads_eq_true_iff params).mpr h
  · intro h
    cases hcg : check_grads params with
    | false => rfl
    | true =>
        rcases (check_grads_eq_true_iff params).mp hcg with ⟨hm, hx⟩
        cases h with
        | inl h1 => exact absurd h1 (not_lt.mpr hm)
        | inr h2 => exact absurd h2 (not_lt.mpr hx)

/-- Witness for C1 (amended): a parameter whose mean gradient is 200 makes
the monitor report unhealthy. -/
theorem c1_amended_witness :
    (100 < npMean (gradMeans [some [200]]) ∨
        100 < npMax (gradMeans [some [200]])) ∧
      check_grads [some [200]] = false := by
  have hm : npMean [(200 : ℚ)] = 200 := by norm_num [npMean]
  have hg : gradMeans [some [200]] = [200] := by simp [gradMeans, hm]
  have hmean : 100 < npMean (gradMeans [some [200]]) := by
    rw [hg]
    norm_num [npMean]
  exact ⟨Or.inl hmean, (c1_amended [some [200]]).2 (Or.inl hmean)⟩

/-- C2: for identical generated and ground-truth images the mean squared
error is exactly 0, and the PSNR computation of train.py line 268 does not
produce +infinity or skip the sample — the reciprocal `1 / mse` fails
(Python raises `ZeroDivisionError`), modelled by `none`. -/
theorem c2_psnr_zero_mse (sr : List ℚ) : psnrRecip sr sr = none := by
  have hz : mseMean sr sr = 0 := by
    unfold mseMean
    have hzip : List.zipWith (fun a b => (a - b) ^ 2) sr sr
        = List.map (fun _ => (0 : ℚ)) sr := by
      induction sr with
      | nil => rfl
      | cons x xs ih => simp [ih]
    rw [hzip]
    simp
  unfold psnrRecip
  rw [hz]
  simp

/-- C8: when no parameter has a populated gradient, the collected list of
gradient means is empty, `grads.any()` is false, and `check_grads` returns
healthy without evaluating mean or max of an empty array. -/
theorem c8_no_populated_grads_healthy (params : List Param)
    (h : ∀ p ∈ params, p = none) : check_grads params = true := by
  rw [check_grads_eq_true_iff, gradMeans_eq_nil h]
  constructor
  · norm_num [npMean]
  · norm_num [npMax]

/-- Witness for C8: a model whose two parameters both have `grad is None`
passes the health check. -/
theorem c8_witness :
    (∀ p ∈ ([none, none] : List Param), p = none) ∧
      check_grads [none, none] = true :=
  ⟨by decide, c8_no_populated_grads_healthy [none, none] (by decide)⟩

/-- C9: the monitor inspects only the per-parameter gradient means and its
threshold is one-sided: whenever every per-parameter mean is at most 100 —
no matter how negative the means are or how large individual gradient values
inside a parameter are — it reports healthy. -/
theorem c9_only_param_means_checked (params : List Param)
    (h : ∀ g ∈ gradMeans params, g ≤ 100) : check_grads params = true := by
  rw [check_grads_eq_true_iff]
  exact ⟨npMean_le_of_forall_le (by norm_num) h, npMax_le (by norm_num) h⟩

/-- C3: with checkpoint epoch `E ≥ 0` and `N ≥ 1` configured epochs, the
adversarial epoch loop `range(1 + max(check_point, 0), n_epoch + 1 +
max(check_point, 0))` visits exactly the epochs `E+1, ..., E+N`; with the
fresh-start value `check_point = -1` it visits `1, ..., N`. -/
theorem c3_resume_epoch_range (E : ℤ) (N : ℕ) (hE : 0 ≤ E) (hN : 1 ≤ N) :
    epochLoop E N = (List.range N).map (fun (i : ℕ) => E + 1 + (i : ℤ)) ∧
      epochLoop (-1) N = (List.range N).map (fun (i : ℕ) => 1 + (i : ℤ)) := by
  constructor
  · unfold epochLoop pythonRange
    rw [max_eq_left hE]
    have hb : ((N : ℤ) + 1 + E - (1 + E)).toNat = N := by omega
    rw [hb]
    apply List.map_congr_left
    intro i _
    ring
  · unfold epochLoop pythonRange
    rw [show max (-1 : ℤ) 0 = 0 from max_eq_right (by norm_num)]
    have hb : ((N : ℤ) + 1 + 0 - (1 + 0)).toNat = N := by omega
    rw [hb]
    apply List.map_congr_left
    intro i _
    ring

/-- Witness for C3: resuming from epoch 4 for 3 more epochs runs epochs
5, 6, 7, and a fresh start runs 1, 2, 3. -/
theorem c3_resume_epoch_range_witness :
    (0 : ℤ) ≤ 4 ∧ 1 ≤ 3 ∧
      (epochLoop 4 3 = (List.range 3).map (fun (i : ℕ) => 4 + 1 + (i : ℤ)) ∧
        epochLoop (-1) 3 = (List.range 3).map (fun (i : ℕ) => 1 + (i : ℤ))) :=
  ⟨by norm_num, by norm_num, c3_resume_epoch_range 4 3 (by norm_num) (by norm_num)⟩

/-- C4: at every adversarial epoch end the generator state is saved
unconditionally, while the discriminator state and both optimizer states are
saved if and only if the epoch number is divisible by 5. -/
theorem c4_save_schedule (epoch : ℤ) :
    Artifact.netG ∈ epochEndSaves epoch ∧
      (Artifact.netD ∈ epochEndSaves epoch ↔ epoch % 5 = 0) ∧
      (Artifact.optimizerG ∈ epochEndSaves epoch ↔ epoch % 5 = 0) ∧
      (Artifact.optimizerD ∈ epochEndSaves epoch ↔ epoch % 5 = 0) := by
  unfold epochEndSaves
  by_cases h : epoch % 5 = 0 <;> simp [h]

lemma foldl_visStep_of_full {α : Type} (ts : List (α × α × α)) (acc : List α)
    (h : acc.length = 60) : ts.foldl visStep acc = acc := by
  induction ts with
  | nil => rfl
  | cons t ts ih =>
      have hstep : visStep acc t = acc := by
        show (if acc.length < 60 then acc ++ [t.1, t.2.1, t.2.2] else acc) = acc
        rw [h]
        simp
      rw [List.foldl_cons, hstep]
      exact ih

lemma foldl_visStep_length {α : Type} :
    ∀ (ts : List (α × α × α)) (acc : List α), acc.length ≤ 60 → 3 ∣ acc.length →
      (ts.foldl visStep acc).length = min (acc.length + 3 * ts.length) 60 := by
  intro ts
  induction ts with
  | nil =>
      intro acc h _
      simpa using (min_eq_left h).symm
  | cons t ts ih =>
      intro acc hle hdvd
      by_cases hlt : acc.length < 60
      · have hstep : visStep acc t = acc ++ [t.1, t.2.1, t.2.2] := by
          show (if acc.length < 60 then acc ++ [t.1, t.2.1, t.2.2] else acc) = _
          rw [if_pos hlt]
        have hlen : (acc ++ [t.1, t.2.1, t.2.2]).length = acc.length + 3 := by simp
        have hle3 : acc.length + 3 ≤ 60 := by
          obtain ⟨k, hk⟩ := hdvd
          omega
        have hdvd3 : 3 ∣ (acc ++ [t.1, t.2.1, t.2.2]).length := by
          obtain ⟨k, hk⟩ := hdvd
          rw [hlen, hk]
          exact ⟨k + 1, by ring⟩
        rw [List.foldl_cons, hstep, ih _ (hlen ▸ hle3) hdvd3, hlen]
        congr 1
        simp [List.length_cons]
        ring
      · have h60 : acc.length = 60 := le_antisymm hle (not_lt.mp hlt)
        have hstep : visStep acc t = acc := by
          show (if acc.length < 60 then acc ++ [t.1, t.2.1, t.2.2] else acc) = acc
          rw [if_neg hlt]
        rw [List.foldl_cons, hstep, foldl_visStep_of_full ts acc h60, h60]
        have : 60 ≤ 60 + 3 * (t :: ts).length := by omega
        exact (min_eq_right this).symm

/-- C5: the validation visualization list never holds more than 60 images,
and feeding more than 20 triplets (each contributing 3 images only while the
list is below the cap) yields exactly 60 accumulated images. -/
theorem c5_vis_cap {α : Type} (triplets : List (α × α × α)) :
    (dev_images triplets).length ≤ 60 ∧
      (20 < triplets.length → (dev_images triplets).length = 60) := by
  have h : (dev_images triplets).length = min (3 * triplets.length) 60 := by
    unfold dev_images
    rw [foldl_visStep_length triplets [] (by simp) (by simp)]
    simp
  constructor
  · rw [h]
    exact min_le_right _ _
  · intro hgt
    rw [h]
    exact min_eq_right (by omega)

/-- Witness for C5: 21 validation triplets accumulate exactly 60 images. -/
theorem c5_vis_cap_witness :
    20 < ((List.range 21).map (fun i => (i, i, i))).length ∧
      (dev_images ((List.range 21).map (fun i => (i, i, i)))).length = 60 := by
  have hlen : ((List.range 21).map (fun i => (i, i, i))).length = 21 := by simp
  exact ⟨by rw [hlen]; norm_num, (c5_vis_cap _).2 (by rw [hlen]; norm_num)⟩

lemma foldl_cacheStep (batches : List BatchLosses) :
    ∀ c : MetricsCache,
      batches.foldl cacheStep c =
        ⟨c.d_loss + (batches.map BatchLosses.d_loss).sum,
         c.mse_loss + (batches.map BatchLosses.mse_loss).sum,
         c.tv_loss + (batches.map BatchLosses.tv_loss).sum,
         c.adv_loss + (batches.map BatchLosses.adv_loss).sum,
         c.g_loss + (batches.map BatchLosses.g_loss).sum⟩ := by
  induction batches with
  | nil =>
      intro c
      simp
  | cons b bs ih =>
      intro c
      rw [List.foldl_cons, ih]
      simp [cacheStep, add_assoc]

/-- C6: for an adversarial epoch with a nonempty batch list, every logged
metric value equals the sum of that metric's per-batch values divided by the
batch count; the cache these sums accumulate in starts from all zeros each
epoch (`cacheInit`). -/
theorem c6_epoch_metric_average (batches : List BatchLosses) (_h : batches ≠ []) :
    logged_d_loss batches = (batches.map BatchLosses.d_loss).sum / batches.length ∧
      logged_mse_loss batches = (batches.map BatchLosses.mse_loss).sum / batches.length ∧
      logged_tv_loss batches = (batches.map BatchLosses.tv_loss).sum / batches.length ∧
      logged_adv_loss batches = (batches.map BatchLosses.adv_loss).sum / batches.length ∧
      logged_g_loss batches = (batches.map BatchLosses.g_loss).sum / batches.length := by
  have hc : epochCache batches =
      ⟨(batches.map BatchLosses.d_loss).sum, (batches.map BatchLosses.mse_loss).sum,
       (batches.map BatchLosses.tv_loss).sum, (batches.map BatchLosses.adv_loss).sum,
       (batches.map BatchLosses.g_loss).sum⟩ := by
    unfold epochCache cacheInit
    rw [foldl_cacheStep]
    simp
  exact ⟨by unfold logged_d_loss; rw [hc],
         by unfold logged_mse_loss; rw [hc],
         by unfold logged_tv_loss; rw [hc],
         by unfold logged_adv_loss; rw [hc],
         by unfold logged_g_loss; rw [hc]⟩

/-- Witness for C6: two concrete batches average to half their sums. -/
theorem c6_epoch_metric_average_witness :
    ([⟨1, 2, 3, 4, 5⟩, ⟨5, 4, 3, 2, 1⟩] : List BatchLosses) ≠ [] ∧
      (logged_d_loss [⟨1, 2, 3, 4, 5⟩, ⟨5, 4, 3, 2, 1⟩] =
          (([⟨1, 2, 3, 4, 5⟩, ⟨5, 4, 3, 2, 1⟩] : List BatchLosses).map
              BatchLosses.d_loss).sum / ([⟨1, 2, 3, 4, 5⟩, ⟨5, 4, 3, 2, 1⟩] :
              List BatchLosses).length ∧
        logged_mse_loss [⟨1, 2, 3, 4, 5⟩, ⟨5, 4, 3, 2, 1⟩] =
          (([⟨1, 2, 3, 4, 5⟩, ⟨5, 4, 3, 2, 1⟩] : List BatchLosses).map
              BatchLosses.mse_loss).sum / ([⟨1, 2, 3, 4, 5⟩, ⟨5, 4, 3, 2, 1⟩] :
              List BatchLosses).length ∧
        logged_tv_loss [⟨1, 2, 3, 4, 5⟩, ⟨5, 4, 3, 2, 1⟩] =
          (([⟨1, 2, 3, 4, 5⟩, ⟨5, 4, 3, 2, 1⟩] : List BatchLosses).map
              BatchLosses.tv_loss).sum / ([⟨1, 2, 3, 4, 5⟩, ⟨5, 4, 3, 2, 1⟩] :
              List BatchLosses).length ∧
        logged_adv_loss [⟨1, 2, 3, 4, 5⟩, ⟨5, 4, 3, 2, 1⟩] =
          (([⟨1, 2, 3, 4, 5⟩, ⟨5, 4, 3, 2, 1⟩] : List BatchLosses).map
              BatchLosses.adv_loss).sum / ([⟨1, 2, 3, 4, 5⟩, ⟨5, 4, 3, 2, 1⟩] :
              List BatchLosses).length ∧
        logged_g_loss [⟨1, 2, 3, 4, 5⟩, ⟨5, 4, 3, 2, 1⟩] =
          (([⟨1, 2, 3, 4, 5⟩, ⟨5, 4, 3, 2, 1⟩] : List BatchLosses).map
              BatchLosses.g_loss).sum / ([⟨1, 2, 3, 4, 5⟩, ⟨5, 4, 3, 2, 1⟩] :
              List BatchLosses).length) :=
  ⟨List.cons_ne_nil _ _, c6_epoch_metric_average _ (List.cons_ne_nil _ _)⟩

lemma runBatches_healthy (bs : List BatchHealth)
    (h : ∀ x ∈ bs, x.dHealthy = true ∧ x.gHealthy = true) :
    runBatches bs = (bothStepsTrace bs, false) := by
  induction bs with
  | nil => rfl
  | cons b rest ih =>
      obtain ⟨hd, hg⟩ := h b (List.mem_cons_self b rest)
      have ih' := ih (fun x hx => h x (List.mem_cons_of_mem _ hx))
      simp [runBatches, hd, hg, ih', bothStepsTrace]

lemma runBatches_abort (pre : List BatchHealth) (b : BatchHealth)
    (post : List BatchHealth)
    (hpre : ∀ x ∈ pre, x.dHealthy = true ∧ x.gHealthy = true)
    (hb : b.dHealthy = false ∨ b.gHealthy = false) :
    runBatches (pre ++ b :: post) =
      (bothStepsTrace pre ++ if b.dHealthy = true then [Event.stepD] else [],
        true) := by
  induction pre with
  | nil =>
      cases hb with
      | inl h1 => simp [runBatches, h1, bothStepsTrace]
      | inr h2 =>
          cases hd : b.dHealthy with
          | false => simp [runBatches, hd, bothStepsTrace]
          | true => simp [runBatches, hd, h2, bothStepsTrace]
  | cons p ps ih =>
      obtain ⟨hd, hg⟩ := hpre p (List.mem_cons_self p ps)
      have ih' := ih (fun x hx => hpre x (List.mem_cons_of_mem _ hx))
      simp [runBatches, hd, hg, ih', bothStepsTrace]

lemma runEpochs_append_healthy (done rest : List (List BatchHealth))
    (hdone : ∀ e ∈ done, ∀ x ∈ e, x.dHealthy = true ∧ x.gHealthy = true) :
    runEpochs (done ++ rest) = healthyEpochsTrace done ++ runEpochs rest := by
  induction done with
  | nil => simp [healthyEpochsTrace]
  | cons e es ih =>
      have he := hdone e (List.mem_cons_self e es)
      have ih' := ih (fun q hq => hdone q (List.mem_cons_of_mem _ hq))
      have hr := runBatches_healthy e he
      simp [runEpochs, hr, ih', healthyEpochsTrace]

/-- C7: when the gradient check fails at some batch — after any number of
fully healthy epochs and healthy earlier batches of the current epoch — the
run's whole event trace is the healthy prefix's trace, plus only the
discriminator step of the failing batch when it was the generator check that
failed: the failing model's optimizer step never runs, and no later batch,
end-of-epoch logging/saving/validation, or epoch contributes anything. -/
theorem c7_unhealthy_aborts (done : List (List BatchHealth))
    (pre post : List BatchHealth) (b : BatchHealth)
    (later : List (List BatchHealth))
    (hdone : ∀ e ∈ done, ∀ x ∈ e, x.dHealthy = true ∧ x.gHealthy = true)
    (hpre : ∀ x ∈ pre, x.dHealthy = true ∧ x.gHealthy = true)
    (hb : b.dHealthy = false ∨ b.gHealthy = false) :
    runEpochs (done ++ (pre ++ b :: post) :: later) =
      healthyEpochsTrace done ++
        (bothStepsTrace pre ++ if b.dHealthy = true then [Event.stepD] else []) := by
  rw [runEpochs_append_healthy done _ hdone]
  congr 1
  have hr := runBatches_abort pre b post hpre hb
  simp [runEpochs, hr]

/-- Witness for C7: one healthy epoch, then a healthy batch, then a batch
whose generator check fails; the trace stops right after that batch's
discriminator step, ignoring the rest of the epoch and a later epoch. -/
theorem c7_unhealthy_aborts_witness :
    runEpochs ([[BatchHealth.mk true true]] ++
        ([BatchHealth.mk true true] ++
          BatchHealth.mk true false :: [BatchHealth.mk true true]) ::
          [[BatchHealth.mk false true]]) =
      healthyEpochsTrace [[BatchHealth.mk true true]] ++
        (bothStepsTrace [BatchHealth.mk true true] ++
          if (BatchHealth.mk true false).dHealthy = true then [Event.stepD]
          else []) :=
  c7_unhealthy_aborts _ _ _ _ _ (by decide) (by decide) (Or.inr rfl)

lemma one_le_of_mem_epochLoop {x cp : ℤ} {n : ℕ} (h : x ∈ epochLoop cp n) :
    1 ≤ x := by
  unfold epochLoop pythonRange at h
  obtain ⟨i, _, rfl⟩ := List.mem_map.mp h
  have h0 : (0 : ℤ) ≤ max cp 0 := le_max_right cp 0
  have h1 : (0 : ℤ) ≤ (i : ℤ) := Int.natCast_nonneg i
  linarith

/-- C10: every `check_point` value below -1 skips pretraining (only the exact
value -1 enables it), still enters the checkpoint-loading branch — which
derives its file names from the negative epoch number, a checkpoint key no
run ever saves, since every adversarial epoch number is at least 1 — and the
epoch loop nevertheless starts at epoch 1. -/
theorem c10_negative_checkpoint (cp : ℤ) (h : cp < -1) :
    pretrainRuns cp = false ∧ loadsCheckpoint cp = true ∧
      (∀ (cp2 : ℤ) (n : ℕ), cp ∉ epochLoop cp2 n) ∧
      (∀ n : ℕ, epochLoop cp n = (List.range n).map (fun (i : ℕ) => 1 + (i : ℤ))) := by
  refine ⟨?_, ?_, ?_, ?_⟩
  · unfold pretrainRuns
    simp only [beq_eq_false_iff_ne, ne_eq]
    omega
  · unfold loadsCheckpoint
    simp only [bne_iff_ne, ne_eq]
    omega
  · intro cp2 n hmem
    have := one_le_of_mem_epochLoop hmem
    omega
  · intro n
    unfold epochLoop pythonRange
    rw [show max cp 0 = 0 from max_eq_right (by omega)]
    have hb : ((n : ℤ) + 1 + 0 - (1 + 0)).toNat = n := by omega
    rw [hb]
    apply List.map_congr_left
    intro i _
    ring

/-- Witness for C10: `check_point = -2` skips pretraining, attempts a load of
a never-saved checkpoint key, and would start the epoch loop at 1. -/
theorem c10_negative_checkpoint_witness :
    pretrainRuns (-2) = false ∧ loadsCheckpoint (-2) = true ∧
      (∀ (cp2 : ℤ) (n : ℕ), (-2 : ℤ) ∉ epochLoop cp2 n) ∧
      (∀ n : ℕ, epochLoop (-2) n = (List.range n).map (fun (i : ℕ) => 1 + (i : ℤ))) :=
  c10_negative_checkpoint (-2) (by norm_num)

/-- Witness for C9: one parameter with values `[300, -300, -30]` (an element
far above 100, mean -10) and one with mean -1000 still pass the check. -/
theorem c9_witness :
    (∀ g ∈ gradMeans [some [300, -300, -30], some [-1000]], g ≤ 100) ∧
      check_grads [some [300, -300, -30], some [-1000]] = true := by
  have e1 : npMean [(300 : ℚ), -300, -30] = -10 := by norm_num [npMean]
  have e2 : npMean [(-1000 : ℚ)] = -1000 := by norm_num [npMean]
  have hg : gradMeans [some [300, -300, -30], some [-1000]] = [-10, -1000] := by
    simp [gradMeans, e1, e2]
  have hall : ∀ g ∈ gradMeans [some [300, -300, -30], some [-1000]], g ≤ 100 := by
    rw [hg]
    intro g hgm
    rcases List.mem_cons.mp hgm with rfl | hgm
    · norm_num
    · rcases List.mem_singleton.mp hgm with rfl
      norm_num
  exact ⟨hall, c9_only_param_means_checked _ hall⟩

end SRGAN
